import Mathlib

/-!
Verification of the InfiniPlace protocol library (`packages/shared/src/protocol.ts`).

The TypeScript source is shallowly embedded below: JavaScript integers become
`Int` (or `Nat` where the source only ever produces naturals), JavaScript
truncating `%` becomes `Int.tmod`, `Math.floor` of an integer quotient becomes
`Int.fdiv`, JavaScript strings become Lean `String`, `Array.findIndex` becomes
an `Option Nat`-returning scan, and JavaScript numbers that may be fractional
(the `Number.isInteger` check in `isValidColorIndex`) become `ℚ`.
-/

namespace InfiniPlace

/-- Source: `export const TILE_SIZE = 64;` -/
def TILE_SIZE : Int := 64

/-- Source: `export const PROTOCOL_VERSION = 1;` -/
def PROTOCOL_VERSION : Int := 1

/-- Source: `interface TileCoord { tx; ty }` -/
structure TileCoord where
  tx : Int
  ty : Int
  deriving DecidableEq, Repr

/-- Source: `interface TileOffset { ox; oy }` -/
structure TileOffset where
  ox : Int
  oy : Int
  deriving DecidableEq, Repr

/-- Source: `interface PixelCoord { x; y }` -/
structure PixelCoord where
  x : Int
  y : Int
  deriving DecidableEq, Repr

/-- Source: `toTileCoord(x, y) = { tx: Math.floor(x / TILE_SIZE), ty: Math.floor(y / TILE_SIZE) }`.
For an integer `x`, `Math.floor(x / 64)` is floor division, i.e. `Int.fdiv`. -/
def toTileCoord (x y : Int) : TileCoord :=
  { tx := Int.fdiv x TILE_SIZE, ty := Int.fdiv y TILE_SIZE }

/-- Source: `toTileOffset(x, y)`: `ox = ((x % TILE_SIZE) + TILE_SIZE) % TILE_SIZE` where
JavaScript `%` is the truncating remainder, i.e. `Int.tmod`. -/
def toTileOffset (x y : Int) : TileOffset :=
  { ox := Int.tmod (Int.tmod x TILE_SIZE + TILE_SIZE) TILE_SIZE
    oy := Int.tmod (Int.tmod y TILE_SIZE + TILE_SIZE) TILE_SIZE }

/-- Source: `toPixelCoord(tx, ty) = { x: tx * TILE_SIZE, y: ty * TILE_SIZE }` -/
def toPixelCoord (tx ty : Int) : PixelCoord :=
  { x := tx * TILE_SIZE, y := ty * TILE_SIZE }

/-- Source: `toCenteredPixelCoord(tx, ty) = { x: tx*TILE_SIZE + TILE_SIZE/2, ... }` -/
def toCenteredPixelCoord (tx ty : Int) : PixelCoord :=
  { x := tx * TILE_SIZE + TILE_SIZE / 2, y := ty * TILE_SIZE + TILE_SIZE / 2 }

/-- The double-`tmod` dance of the source equals the Euclidean remainder. -/
theorem tmod_dance (x : Int) : Int.tmod (Int.tmod x 64 + 64) 64 = x % 64 := by
  rcases le_or_lt 0 x with hx | hx
  · rw [Int.tmod_eq_emod hx (by decide)]
    rw [Int.tmod_eq_emod (by have := Int.emod_nonneg x (b := 64) (by decide); omega) (by decide)]
    omega
  · have hneg : Int.tmod x 64 = x + 64 * ((-x) / 64) := by
      have h1 : Int.tmod (-x) 64 = (-x) % 64 :=
        Int.tmod_eq_emod (by omega) (by decide)
      have h2 : Int.tmod (-x) 64 = -(Int.tmod x 64) := by
        rw [Int.tmod_def, Int.tmod_def, Int.neg_tdiv]
        ring
      have h3 : (-x) % 64 = (-x) - 64 * ((-x) / 64) := by
        have := Int.ediv_add_emod (-x) 64
        omega
      omega
    rw [hneg]
    have hb1 : 0 ≤ (-x) % 64 := Int.emod_nonneg (-x) (by decide)
    have hb2 : (-x) % 64 < 64 := Int.emod_lt_of_pos (-x) (by decide)
    have h3 : (-x) % 64 = (-x) - 64 * ((-x) / 64) := by
      have := Int.ediv_add_emod (-x) 64
      omega
    rw [Int.tmod_eq_emod (by omega) (by decide)]
    omega

/-- Both components of `toTileOffset` equal the Euclidean remainder mod 64. -/
theorem toTileOffset_eq_emod (x y : Int) :
    (toTileOffset x y).ox = x % 64 ∧ (toTileOffset x y).oy = y % 64 :=
  ⟨tmod_dance x, tmod_dance y⟩

/-- C1: Round-trip law of the coordinate system. For every pair of integers
`x, y`, adding `toPixelCoord (toTileCoord x y)` and `toTileOffset x y`
componentwise reconstructs `(x, y)` exactly: `tx*64 + ox = x` and
`ty*64 + oy = y`. -/
theorem coord_round_trip (x y : Int) :
    (toPixelCoord (toTileCoord x y).tx (toTileCoord x y).ty).x + (toTileOffset x y).ox = x ∧
    (toPixelCoord (toTileCoord x y).tx (toTileCoord x y).ty).y + (toTileOffset x y).oy = y := by
  constructor
  · show Int.fdiv x TILE_SIZE * TILE_SIZE + Int.tmod (Int.tmod x TILE_SIZE + TILE_SIZE) TILE_SIZE = x
    show Int.fdiv x 64 * 64 + Int.tmod (Int.tmod x 64 + 64) 64 = x
    rw [tmod_dance, Int.fdiv_eq_ediv x (by decide)]
    have := Int.ediv_add_emod x 64
    omega
  · show Int.fdiv y 64 * 64 + Int.tmod (Int.tmod y 64 + 64) 64 = y
    rw [tmod_dance, Int.fdiv_eq_ediv y (by decide)]
    have := Int.ediv_add_emod y 64
    omega

/-- C5: For every pair of integers `x, y` (including negatives) both components
of `toTileOffset x y` lie in `[0, 64)` and are the Euclidean remainder mod 64;
in particular `toTileOffset (-1) (-1) = {ox := 63, oy := 63}`. -/
theorem toTileOffset_range (x y : Int) :
    0 ≤ (toTileOffset x y).ox ∧ (toTileOffset x y).ox < 64 ∧
    0 ≤ (toTileOffset x y).oy ∧ (toTileOffset x y).oy < 64 ∧
    (toTileOffset x y).ox = x % 64 ∧ (toTileOffset x y).oy = y % 64 ∧
    toTileOffset (-1) (-1) = { ox := 63, oy := 63 } := by
  have hx := tmod_dance x
  have hy := tmod_dance y
  have hx1 : 0 ≤ x % 64 := Int.emod_nonneg x (by decide)
  have hx2 : x % 64 < 64 := Int.emod_lt_of_pos x (by decide)
  have hy1 : 0 ≤ y % 64 := Int.emod_nonneg y (by decide)
  have hy2 : y % 64 < 64 := Int.emod_lt_of_pos y (by decide)
  refine ⟨?_, ?_, ?_, ?_, hx, hy, by decide⟩
  · show 0 ≤ Int.tmod (Int.tmod x 64 + 64) 64
    omega
  · show Int.tmod (Int.tmod x 64 + 64) 64 < 64
    omega
  · show 0 ≤ Int.tmod (Int.tmod y 64 + 64) 64
    omega
  · show Int.tmod (Int.tmod y 64 + 64) 64 < 64
    omega

/-- Source: `tileKey(tx, ty) = ` the template literal `` `${tx}:${ty}` ``: the decimal
rendering of each integer joined by a colon.  JavaScript renders an integral
number as an optional minus sign followed by decimal digits with no padding;
`intRepr` below reproduces that rendering. -/
def digitChar (d : Nat) : Char := Char.ofNat (48 + d)

/-- Most-significant-first decimal digits of `n`; `fuel` bounds the recursion
(`fuel = n` suffices since `n / 10 < n` for `n > 0`). -/
def natDigitsAux : Nat → Nat → List Char
  | 0, _ => []
  | fuel + 1, n => if n = 0 then [] else natDigitsAux fuel (n / 10) ++ [digitChar (n % 10)]

/-- Decimal rendering of a natural number, as JavaScript renders it. -/
def natRepr (n : Nat) : List Char := if n = 0 then ['0'] else natDigitsAux n n

/-- Decimal rendering of an integer, as JavaScript renders it: a minus sign
followed by the digits of the absolute value when negative. -/
def intRepr (i : Int) : List Char :=
  if i < 0 then '-' :: natRepr i.natAbs else natRepr i.toNat

/-- Source: `export const tileKey = (tx, ty) => ` `` `${tx}:${ty}` `` -/
def tileKey (tx ty : Int) : String := ⟨intRepr tx ++ ':' :: intRepr ty⟩

-- ---- Palette registry ----

/-- Source: `interface Palette { id; name; version; colors }` -/
structure Palette where
  id : String
  name : String
  version : Nat
  colors : List String
  deriving DecidableEq, Repr

/-- Source: `export const CLASSIC_PALETTE` -/
def CLASSIC_PALETTE : Palette :=
  { id := "classic", name := "Classic", version := 3
    colors :=
      [ "#FFFFFFFF", "#FFAAFFFF", "#FF55FFFF", "#FF00FFFF"
      , "#FFFF00FF", "#FFAA00FF", "#FF5500FF", "#FF0000FF"
      , "#00FFFFFF", "#00AAFFFF", "#0055FFFF", "#0000FFFF"
      , "#00FF00FF", "#00AA00FF", "#005500FF", "#000000FF" ] }

/-- Source: `export const EARTH_PALETTE` -/
def EARTH_PALETTE : Palette :=
  { id := "earth", name := "Earth Tones", version := 1
    colors :=
      [ "#F3E5D0FF", "#E9D5B3FF", "#DFC49AFF", "#D4B183FF"
      , "#C9A069FF", "#B78A56FF", "#A67845FF", "#946838FF"
      , "#81572DFF", "#6D4824FF", "#5A3B1CFF", "#4A2E17FF"
      , "#3B2312FF", "#2D1A0EFF", "#1F120AFF", "#120A05FF" ] }

/-- Source: `export const SHADES_PALETTE` -/
def SHADES_PALETTE : Palette :=
  { id := "shades", name := "Shades", version := 1
    colors :=
      [ "#FFFFFFFF", "#F5F5F5FF", "#EBEBEBFF", "#E0E0E0FF"
      , "#D6D6D6FF", "#CCCCCCFF", "#C2C2C2FF", "#B8B8B8FF"
      , "#ADADADFF", "#A3A3A3FF", "#999999FF", "#8F8F8FFF"
      , "#858585FF", "#7A7A7AFF", "#707070FF", "#000000FF" ] }

/-- Source: `interface PaletteSet { palettes; defaultPaletteId }` -/
structure PaletteSet where
  palettes : List Palette
  defaultPaletteId : String
  deriving DecidableEq, Repr

/-- Source: `export const PALETTE_SET = { palettes: [CLASSIC, EARTH, SHADES], defaultPaletteId: CLASSIC_PALETTE.id }` -/
def PALETTE_SET : PaletteSet :=
  { palettes := [CLASSIC_PALETTE, EARTH_PALETTE, SHADES_PALETTE]
    defaultPaletteId := CLASSIC_PALETTE.id }

/-- Source: `export const DEFAULT_PALETTE = CLASSIC_PALETTE;` -/
def DEFAULT_PALETTE : Palette := CLASSIC_PALETTE

/-- Embedding of `Array.prototype.findIndex`, as the index of the first element satisfying
`p`, or `none` where the JavaScript original returns `-1`. -/
def findIndex {α : Type} (p : α → Bool) : List α → Option Nat
  | [] => none
  | a :: l => if p a then some 0 else (findIndex p l).map (· + 1)

/-- Source: `export const getPaletteById = (id) => PALETTE_SET.palettes.find(p => p.id === id)` -/
def getPaletteById (id : String) : Option Palette :=
  PALETTE_SET.palettes.find? (fun palette => palette.id == id)

/-- Source: `PALETTE_INDEX_BY_ID[id]`: the record built by the module initializer maps
each palette's id to its position in `PALETTE_SET.palettes` (ids are distinct,
so the `forEach` write for a given id is unique); access of an absent key is
`undefined`, modelled as `none`. -/
def PALETTE_INDEX_BY_ID (id : String) : Option Nat :=
  findIndex (fun palette => palette.id == id) PALETTE_SET.palettes

/-- Source: `export const paletteIdToOrdinal = (id) => { const idx = PALETTE_INDEX_BY_ID[id];
return Number.isInteger(idx) ? idx : PALETTE_INDEX_BY_ID[DEFAULT_PALETTE.id]; }`
(the fallback lookup always succeeds, since the default palette is in the set;
`getD 0` is never reached and only makes the match total). -/
def paletteIdToOrdinal (id : String) : Nat :=
  match PALETTE_INDEX_BY_ID id with
  | some idx => idx
  | none => (PALETTE_INDEX_BY_ID DEFAULT_PALETTE.id).getD 0

/-- Source: `export const ordinalToPaletteId = (ordinal) => { const pal = PALETTE_SET.palettes[ordinal];
return pal ? pal.id : DEFAULT_PALETTE.id; }`; a negative or too-large index
reads `undefined` from the array, modelled as `none`. -/
def ordinalToPaletteId (ordinal : Int) : String :=
  match (if 0 ≤ ordinal then PALETTE_SET.palettes[ordinal.toNat]? else none) with
  | some pal => pal.id
  | none => DEFAULT_PALETTE.id

/-- ASCII uppercasing of one character, the effect of
`String.prototype.toUpperCase` on the ASCII strings used here. -/
def upperChar (c : Char) : Char :=
  if 'a' ≤ c ∧ c ≤ 'z' then Char.ofNat (c.toNat - 32) else c

/-- Source: `hex.toUpperCase()` over ASCII strings. -/
def toUpperAscii (s : String) : String := ⟨s.data.map upperChar⟩

/-- The `norm` closure of `findColorIndex`:
`hex.length === 7 ? hex.toUpperCase() + 'FF' : hex.toUpperCase()`. -/
def normHex (hex : String) : String :=
  if hex.length = 7 then toUpperAscii hex ++ "FF" else toUpperAscii hex

/-- Source: `export const findColorIndex = (color, palette = DEFAULT_PALETTE) => { const
target = norm(color); return palette.colors.findIndex(c => norm(c) === target); }` -/
def findColorIndex (color : String) (palette : Palette) : Int :=
  match findIndex (fun c => normHex c == normHex color) palette.colors with
  | some i => (i : Int)
  | none => -1

/-- Source: `export const DEFAULT_BASELINE_COLOR_INDEX = (() => { const idx =
findColorIndex('#FFFFFF'); return idx >= 0 ? idx : 0; })()` -/
def DEFAULT_BASELINE_COLOR_INDEX : Int :=
  let idx := findColorIndex "#FFFFFF" DEFAULT_PALETTE
  if 0 ≤ idx then idx else 0

/-- Source: `export const DEFAULT_BASELINE_PALETTE_ID = DEFAULT_PALETTE.id;` -/
def DEFAULT_BASELINE_PALETTE_ID : String := DEFAULT_PALETTE.id

/-- Source: `export const DEFAULT_BASELINE_PALETTE_ORDINAL = paletteIdToOrdinal(DEFAULT_BASELINE_PALETTE_ID);` -/
def DEFAULT_BASELINE_PALETTE_ORDINAL : Nat := paletteIdToOrdinal DEFAULT_BASELINE_PALETTE_ID

/-- Source: `export const isValidColorIndex = (idx, palette = DEFAULT_PALETTE) =>
Number.isInteger(idx) && idx >= 0 && idx < palette.colors.length`.  The
argument is a JavaScript number that may be fractional, modelled as `ℚ`;
`Number.isInteger` is the denominator-one test. -/
def isValidColorIndex (idx : ℚ) (palette : Palette) : Bool :=
  idx.isInt && decide (0 ≤ idx) && decide (idx < (palette.colors.length : ℚ))

-- ---- Handshake ----

/-- Source: `interface HandshakeInfo { protocolVersion; paletteVersion; tileSize }` -/
structure HandshakeInfo where
  protocolVersion : Int
  paletteVersion : Int
  tileSize : Int
  deriving DecidableEq, Repr

/-- Source: `export const isCompatible = (server) =>
server.protocolVersion === PROTOCOL_VERSION && server.tileSize === TILE_SIZE;` -/
def isCompatible (server : HandshakeInfo) : Bool :=
  server.protocolVersion == PROTOCOL_VERSION && server.tileSize == TILE_SIZE

-- ---- Delta protocol ----

/-- Source: `interface PixelChange { ox; oy; color; paletteId }` -/
structure PixelChange where
  ox : Int
  oy : Int
  color : Int
  paletteId : String
  deriving DecidableEq, Repr

/-- Source: `interface TileDelta { tx; ty; seq; changes }` -/
structure TileDelta where
  tx : Int
  ty : Int
  seq : Nat
  changes : List PixelChange
  deriving DecidableEq, Repr

/-- The per-pixel state of one tile: each intra-tile offset carries the color
index and palette id last written to it. -/
def TileState : Type := Int × Int → Int × String

/-- Apply one `PixelChange`: overwrite the addressed pixel. -/
def applyChange (s : TileState) (c : PixelChange) : TileState :=
  fun p => if p = (c.ox, c.oy) then (c.color, c.paletteId) else s p

/-- Apply the changes of one delta batch in list order. -/
def applyDelta (s : TileState) (d : TileDelta) : TileState :=
  d.changes.foldl applyChange s

/-- Apply a list of delta batches in list order. -/
def applyDeltas (s : TileState) (l : List TileDelta) : TileState :=
  l.foldl applyDelta s

/-- Ascending-`seq` order on delta batches. -/
def seqLE (a b : TileDelta) : Prop := a.seq ≤ b.seq

instance : DecidableRel seqLE := fun a b => Nat.decLe a.seq b.seq

/-- Sort delta batches into ascending `seq` order. -/
def sortBySeq (l : List TileDelta) : List TileDelta := List.insertionSort seqLE l

-- ---- Helper lemmas about findIndex ----

/-- A scan over a list with no satisfying element finds nothing. -/
theorem findIndex_eq_none {α : Type} {p : α → Bool} :
    ∀ {l : List α}, (∀ a ∈ l, p a = false) → findIndex p l = none := by
  intro l h
  induction l with
  | nil => rfl
  | cons a l ih =>
    have ha : p a = false := h a (by simp)
    simp [findIndex, ha, ih (fun b hb => h b (by simp [hb]))]

/-- A scan finds the first satisfying index. -/
theorem findIndex_first {α : Type} {p : α → Bool} (d : α) :
    ∀ (l : List α) (i : Nat), i < l.length → p (l.getD i d) = true →
      (∀ j, j < i → p (l.getD j d) = false) → findIndex p l = some i := by
  intro l
  induction l with
  | nil => intro i hi _ _; simp at hi
  | cons a l ih =>
    intro i hi hp hprev
    cases i with
    | zero =>
      simp only [List.getD_cons_zero] at hp
      simp [findIndex, hp]
    | succ i =>
      have ha : p a = false := by
        have := hprev 0 (Nat.succ_pos i)
        simpa using this
      have hrec : findIndex p l = some i := by
        apply ih i (by simpa using hi) (by simpa using hp)
        intro j hj
        have := hprev (j + 1) (by omega)
        simpa using this
      simp [findIndex, ha, hrec]

/-- A found index is within bounds. -/
theorem findIndex_some_lt {α : Type} {p : α → Bool} :
    ∀ {l : List α} {i : Nat}, findIndex p l = some i → i < l.length := by
  intro l
  induction l with
  | nil => intro i h; simp [findIndex] at h
  | cons a l ih =>
    intro i h
    by_cases hpa : p a
    · simp [findIndex, hpa] at h
      simp [← h]
    · simp only [findIndex, if_neg hpa, Option.map_eq_some'] at h
      obtain ⟨i', hi', rfl⟩ := h
      have := ih hi'
      simp
      omega

-- ---- C3: palette id / ordinal resolution ----

/-- C3: `paletteIdToOrdinal` returns the catalog position of a known id
(`paletteIdToOrdinal "classic" = 0`) and silently falls back to the default
palette's ordinal for an unknown id; `ordinalToPaletteId` returns the id at a
valid ordinal (`ordinalToPaletteId 0 = "classic"`) and falls back to the
default palette's id for any out-of-range ordinal (e.g. 999), with no error;
consequently the two maps round-trip on every catalog id. -/
theorem palette_ordinal_spec :
    paletteIdToOrdinal "classic" = 0
    ∧ (∀ id : String, (∀ p ∈ PALETTE_SET.palettes, p.id ≠ id) →
        paletteIdToOrdinal id = paletteIdToOrdinal PALETTE_SET.defaultPaletteId)
    ∧ ordinalToPaletteId 0 = "classic"
    ∧ (∀ n : Int, n < 0 ∨ (PALETTE_SET.palettes.length : Int) ≤ n →
        ordinalToPaletteId n = DEFAULT_PALETTE.id)
    ∧ ordinalToPaletteId 999 = DEFAULT_PALETTE.id
    ∧ (∀ p ∈ PALETTE_SET.palettes,
        ordinalToPaletteId ((paletteIdToOrdinal p.id : Nat) : Int) = p.id) := by
  refine ⟨by decide, ?_, by decide, ?_, by decide, by decide⟩
  · intro id h
    have hnone : PALETTE_INDEX_BY_ID id = none := by
      apply findIndex_eq_none
      intro pal hpal
      simpa [beq_eq_false_iff_ne] using h pal hpal
    simp only [paletteIdToOrdinal, hnone]
    decide
  · intro n hn
    rcases le_or_lt 0 n with h0 | h0
    · have hlen3 : PALETTE_SET.palettes.length = 3 := rfl
      have hge : PALETTE_SET.palettes.length ≤ n.toNat := by omega
      have hnone : PALETTE_SET.palettes[n.toNat]? = none := by
        simpa using List.getElem?_eq_none hge
      simp only [ordinalToPaletteId, if_pos h0, hnone]
    · simp only [ordinalToPaletteId, if_neg (not_le.mpr h0)]

-- ---- C4: handshake compatibility ----

/-- C4: `isCompatible server` is true exactly when the server's protocol
version equals `PROTOCOL_VERSION` (1) and its tile size equals `TILE_SIZE`
(64); `paletteVersion` has no effect; in particular the handshake examples
`{1, 3, 64}` and `{2, 3, 64}` evaluate to true and false respectively. -/
theorem isCompatible_spec :
    (∀ server : HandshakeInfo,
      isCompatible server = true ↔
        server.protocolVersion = PROTOCOL_VERSION ∧ server.tileSize = TILE_SIZE)
    ∧ (∀ pv ts v v' : Int,
        isCompatible ⟨pv, v, ts⟩ = isCompatible ⟨pv, v', ts⟩)
    ∧ isCompatible ⟨1, 3, 64⟩ = true
    ∧ isCompatible ⟨2, 3, 64⟩ = false := by
  refine ⟨fun server => ?_, fun pv ts v v' => ?_, by decide, by decide⟩
  · simp [isCompatible]
  · simp [isCompatible]

-- ---- C6: color lookup ----

/-- C6: `findColorIndex` normalizes a 6-hex-digit color to 8 digits by
appending `FF`, compares case-insensitively (both sides uppercased) against
the palette entries in order, and returns the index of the first match or
`-1` when nothing matches; `-1` is never a valid index (the result is either
`-1` or within bounds); both `"#FFFFFF"` and `"#FFFFFFFF"` resolve to index 0
in the classic palette. -/
theorem findColorIndex_spec (color : String) (palette : Palette) :
    ((∀ c ∈ palette.colors, normHex c ≠ normHex color) →
      findColorIndex color palette = -1)
    ∧ (∀ i : Nat, i < palette.colors.length →
        normHex (palette.colors.getD i "") = normHex color →
        (∀ j, j < i → normHex (palette.colors.getD j "") ≠ normHex color) →
        findColorIndex color palette = (i : Int))
    ∧ (findColorIndex color palette = -1 ∨
        (0 ≤ findColorIndex color palette ∧
          findColorIndex color palette < (palette.colors.length : Int)))
    ∧ findColorIndex "#FFFFFF" CLASSIC_PALETTE = 0
    ∧ findColorIndex "#FFFFFFFF" CLASSIC_PALETTE = 0 := by
  refine ⟨?_, ?_, ?_, by decide, by decide⟩
  · intro h
    have hnone : findIndex (fun c => normHex c == normHex color) palette.colors = none :=
      findIndex_eq_none (fun a ha => by simpa [beq_eq_false_iff_ne] using h a ha)
    simp [findColorIndex, hnone]
  · intro i hi hp hprev
    have hsome : findIndex (fun c => normHex c == normHex color) palette.colors = some i := by
      apply findIndex_first "" palette.colors i hi
      · simpa using hp
      · intro j hj
        simpa [beq_eq_false_iff_ne] using hprev j hj
    simp [findColorIndex, hsome]
  · cases hfi : findIndex (fun c => normHex c == normHex color) palette.colors with
    | none => exact Or.inl (by simp [findColorIndex, hfi])
    | some i =>
      refine Or.inr ?_
      have hlt := findIndex_some_lt hfi
      simp only [findColorIndex, hfi]
      omega

-- ---- C8: color index validation ----

/-- C8: `isValidColorIndex idx palette` is true exactly when the (possibly
fractional) number `idx` is an integer with `0 ≤ idx < palette.colors.length`;
in particular `-1` and `3/2` (= 1.5) are rejected for every palette, and `0`
is valid for the classic palette. -/
theorem isValidColorIndex_spec (idx : ℚ) (palette : Palette) :
    (isValidColorIndex idx palette = true ↔
      ((∃ k : ℤ, idx = (k : ℚ)) ∧ 0 ≤ idx ∧ idx < (palette.colors.length : ℚ)))
    ∧ isValidColorIndex (-1) palette = false
    ∧ isValidColorIndex (3 / 2) palette = false
    ∧ isValidColorIndex 0 CLASSIC_PALETTE = true := by
  have hiff : ∀ (q : ℚ) (pal : Palette), isValidColorIndex q pal = true ↔
      ((∃ k : ℤ, q = (k : ℚ)) ∧ 0 ≤ q ∧ q < (pal.colors.length : ℚ)) := by
    intro q pal
    constructor
    · intro h
      simp only [isValidColorIndex, Bool.and_eq_true, decide_eq_true_eq, Rat.isInt] at h
      obtain ⟨⟨hden, hnn⟩, hlt⟩ := h
      have hden1 : q.den = 1 := by simpa using hden
      exact ⟨⟨q.num, ((Rat.den_eq_one_iff q).mp hden1).symm⟩, hnn, hlt⟩
    · rintro ⟨⟨k, rfl⟩, hnn, hlt⟩
      simp only [isValidColorIndex, Bool.and_eq_true, decide_eq_true_eq, Rat.isInt]
      refine ⟨⟨by simp [Rat.den_intCast], hnn⟩, hlt⟩
  refine ⟨hiff idx palette, ?_, ?_, ?_⟩
  · rcases Bool.eq_false_or_eq_true (isValidColorIndex (-1) palette) with h | h
    · exfalso
      obtain ⟨-, hnn, -⟩ := (hiff (-1) palette).mp h
      norm_num at hnn
    · exact h
  · rcases Bool.eq_false_or_eq_true (isValidColorIndex (3 / 2) palette) with h | h
    · exfalso
      obtain ⟨⟨k, hk⟩, -, -⟩ := (hiff (3 / 2) palette).mp h
      have h3 : (3 : ℚ) = 2 * (k : ℚ) := by
        rw [div_eq_iff (by norm_num : (2 : ℚ) ≠ 0)] at hk
        linarith [hk]
      have h3' : (3 : ℤ) = 2 * k := by exact_mod_cast h3
      omega
    · exact h
  · refine (hiff 0 CLASSIC_PALETTE).mpr ⟨⟨0, by norm_num⟩, le_refl 0, ?_⟩
    have : CLASSIC_PALETTE.colors.length = 16 := rfl
    rw [this]
    norm_num

-- ---- C9: default baseline color index ----

/-- C9: `DEFAULT_BASELINE_COLOR_INDEX` equals `findColorIndex "#FFFFFF"
DEFAULT_PALETTE` when that lookup is non-negative and `0` when white is absent
(negative lookup); with the shipped catalog the lookup succeeds at white's
position 0, so the baseline is 0. -/
theorem baseline_color_index_spec :
    (0 ≤ findColorIndex "#FFFFFF" DEFAULT_PALETTE →
      DEFAULT_BASELINE_COLOR_INDEX = findColorIndex "#FFFFFF" DEFAULT_PALETTE)
    ∧ (findColorIndex "#FFFFFF" DEFAULT_PALETTE < 0 →
      DEFAULT_BASELINE_COLOR_INDEX = 0)
    ∧ findColorIndex "#FFFFFF" DEFAULT_PALETTE = 0
    ∧ DEFAULT_BASELINE_COLOR_INDEX = 0 := by
  refine ⟨fun h => ?_, fun h => ?_, by decide, by decide⟩
  · simp [DEFAULT_BASELINE_COLOR_INDEX, h]
  · exact absurd h (by decide)

-- ---- C10: per-palette color round-trip ----

/-- C10: within each shipped palette the 16 entries are pairwise distinct after
case normalization, and color lookup round-trips: looking up the `i`-th color
of a palette in that palette yields `i`. -/
theorem palette_color_roundtrip :
    (∀ p ∈ PALETTE_SET.palettes, (p.colors.map normHex).Nodup)
    ∧ (∀ p ∈ PALETTE_SET.palettes, ∀ i : Nat, i < p.colors.length →
        findColorIndex (p.colors.getD i "") p = (i : Int)) := by
  constructor
  · decide
  · decide

-- ---- Helper lemmas for tileKey injectivity ----

/-- Decode a digit string back to the natural number it renders. -/
def decodeDigits (l : List Char) : Nat :=
  l.foldl (fun a c => 10 * a + (c.toNat - 48)) 0

theorem digitChar_toNat {d : Nat} (h : d < 10) : (digitChar d).toNat = 48 + d := by
  interval_cases d <;> rfl

theorem mem_natDigitsAux :
    ∀ {fuel n : Nat} {c : Char}, c ∈ natDigitsAux fuel n → ∃ d, d < 10 ∧ c = digitChar d := by
  intro fuel
  induction fuel with
  | zero => intro n c h; simp [natDigitsAux] at h
  | succ fuel ih =>
    intro n c h
    by_cases hn : n = 0
    · simp [natDigitsAux, hn] at h
    · simp only [natDigitsAux, if_neg hn, List.mem_append, List.mem_singleton] at h
      rcases h with h | h
      · exact ih h
      · exact ⟨n % 10, Nat.mod_lt n (by omega), h⟩

theorem mem_natRepr {n : Nat} {c : Char} (h : c ∈ natRepr n) :
    ∃ d, d < 10 ∧ c = digitChar d := by
  unfold natRepr at h
  by_cases hn : n = 0
  · simp [hn] at h
    exact ⟨0, by omega, by rw [h]; rfl⟩
  · exact mem_natDigitsAux (by simpa [hn] using h)

theorem foldl_natDigitsAux :
    ∀ (fuel n a : Nat), n ≤ fuel →
      (natDigitsAux fuel n).foldl (fun acc c => 10 * acc + (c.toNat - 48)) a
        = a * 10 ^ (natDigitsAux fuel n).length + n := by
  intro fuel
  induction fuel with
  | zero =>
    intro n a h
    have hn : n = 0 := by omega
    simp [natDigitsAux, hn]
  | succ fuel ih =>
    intro n a h
    by_cases hn : n = 0
    · simp [natDigitsAux, hn]
    · simp only [natDigitsAux, if_neg hn]
      rw [List.foldl_append]
      have hf : n / 10 ≤ fuel := by omega
      rw [ih (n / 10) a hf]
      simp only [List.foldl_cons, List.foldl_nil, List.length_append, List.length_singleton]
      rw [digitChar_toNat (Nat.mod_lt n (by omega))]
      have hsub : 48 + n % 10 - 48 = n % 10 := by omega
      rw [hsub]
      have hmod : 10 * (n / 10) + n % 10 = n := Nat.div_add_mod n 10
      calc 10 * (a * 10 ^ (natDigitsAux fuel (n / 10)).length + n / 10) + n % 10
          = a * (10 ^ (natDigitsAux fuel (n / 10)).length * 10) +
              (10 * (n / 10) + n % 10) := by ring
        _ = a * 10 ^ ((natDigitsAux fuel (n / 10)).length + 1) + n := by
              rw [hmod, pow_succ]

theorem decode_natRepr (n : Nat) : decodeDigits (natRepr n) = n := by
  unfold natRepr decodeDigits
  by_cases hn : n = 0
  · simp [hn]
  · simp only [if_neg hn]
    rw [foldl_natDigitsAux n n 0 le_rfl]
    simp

theorem natRepr_inj {m n : Nat} (h : natRepr m = natRepr n) : m = n := by
  have hm := decode_natRepr m
  rw [h, decode_natRepr n] at hm
  exact hm.symm

theorem dash_not_mem_natRepr (n : Nat) : '-' ∉ natRepr n := by
  intro h
  obtain ⟨d, hd, hc⟩ := mem_natRepr h
  have htn := congrArg Char.toNat hc
  rw [digitChar_toNat hd] at htn
  have h45 : ('-' : Char).toNat = 45 := rfl
  omega

theorem colon_not_mem_natRepr (n : Nat) : ':' ∉ natRepr n := by
  intro h
  obtain ⟨d, hd, hc⟩ := mem_natRepr h
  have htn := congrArg Char.toNat hc
  rw [digitChar_toNat hd] at htn
  have h58 : (':' : Char).toNat = 58 := rfl
  omega

theorem colon_not_mem_intRepr (i : Int) : ':' ∉ intRepr i := by
  unfold intRepr
  by_cases h : i < 0
  · simp only [if_pos h, List.mem_cons]
    rintro (hc | hc)
    · exact (by decide : (':' : Char) ≠ '-') hc
    · exact colon_not_mem_natRepr _ hc
  · simp only [if_neg h]
    exact colon_not_mem_natRepr _

theorem intRepr_inj {i j : Int} (h : intRepr i = intRepr j) : i = j := by
  unfold intRepr at h
  by_cases hi : i < 0 <;> by_cases hj : j < 0
  · simp only [if_pos hi, if_pos hj] at h
    injection h with _ h'
    have := natRepr_inj h'
    omega
  · simp only [if_pos hi, if_neg hj] at h
    exfalso
    have : '-' ∈ natRepr j.toNat := by
      rw [← h]
      exact List.mem_cons_self _ _
    exact dash_not_mem_natRepr _ this
  · simp only [if_neg hi, if_pos hj] at h
    exfalso
    have : '-' ∈ natRepr i.toNat := by
      rw [h]
      exact List.mem_cons_self _ _
    exact dash_not_mem_natRepr _ this
  · simp only [if_neg hi, if_neg hj] at h
    have := natRepr_inj h
    omega

theorem append_colon_inj :
    ∀ (a c : List Char) {b d : List Char}, ':' ∉ a → ':' ∉ c →
      a ++ ':' :: b = c ++ ':' :: d → a = c ∧ b = d := by
  intro a
  induction a with
  | nil =>
    intro c b d _ hc h
    cases c with
    | nil => simpa using h
    | cons y c' =>
      exfalso
      simp only [List.nil_append, List.cons_append, List.cons.injEq] at h
      exact hc (h.1 ▸ List.mem_cons_self _ _)
  | cons x a' ih =>
    intro c b d ha hc h
    cases c with
    | nil =>
      exfalso
      simp only [List.cons_append, List.nil_append, List.cons.injEq] at h
      exact ha (h.1 ▸ List.mem_cons_self _ _)
    | cons y c' =>
      simp only [List.cons_append, List.cons.injEq] at h
      obtain ⟨hxy, h'⟩ := h
      have hrec := ih c' (fun hm => ha (List.mem_cons_of_mem _ hm))
        (fun hm => hc (List.mem_cons_of_mem _ hm)) h'
      exact ⟨by rw [hxy, hrec.1], hrec.2⟩

/-- C7: `tileKey` renders the two tile coordinates in decimal joined by a
colon with no padding (`tileKey 3 (-2) = "3:-2"`) and is injective over all
integer pairs, including negatives. -/
theorem tileKey_spec :
    tileKey 3 (-2) = "3:-2"
    ∧ (∀ a b c d : Int, tileKey a b = tileKey c d → a = c ∧ b = d) := by
  constructor
  · decide
  · intro a b c d h
    have hdata : intRepr a ++ ':' :: intRepr b = intRepr c ++ ':' :: intRepr d := by
      have := congrArg String.data h
      simpa [tileKey] using this
    obtain ⟨h1, h2⟩ := append_colon_inj (intRepr a) (intRepr c)
      (colon_not_mem_intRepr a) (colon_not_mem_intRepr c) hdata
    exact ⟨intRepr_inj h1, intRepr_inj h2⟩

-- ---- C2: delta convergence ----

/-- Sorting by `seq` is insensitive to the incoming order when the `seq`
values are pairwise distinct. -/
theorem sortBySeq_eq_of_perm {l₁ l₂ : List TileDelta} (hp : l₁.Perm l₂)
    (hd : l₂.Pairwise fun a b => a.seq ≠ b.seq) : sortBySeq l₁ = sortBySeq l₂ := by
  haveI : IsTrans TileDelta seqLE := ⟨fun _ _ _ h1 h2 => Nat.le_trans h1 h2⟩
  haveI : IsTotal TileDelta seqLE := ⟨fun a b => Nat.le_total a.seq b.seq⟩
  haveI : IsAntisymm TileDelta (fun a b : TileDelta => a.seq < b.seq) :=
    ⟨fun _ _ h1 h2 => absurd h2 (Nat.lt_asymm h1)⟩
  have s₁ : List.Sorted seqLE (sortBySeq l₁) := List.sorted_insertionSort seqLE l₁
  have s₂ : List.Sorted seqLE (sortBySeq l₂) := List.sorted_insertionSort seqLE l₂
  have hperm : (sortBySeq l₁).Perm (sortBySeq l₂) :=
    (List.perm_insertionSort seqLE l₁).trans (hp.trans (List.perm_insertionSort seqLE l₂).symm)
  have hd₂ : (sortBySeq l₂).Pairwise (fun a b => a.seq ≠ b.seq) :=
    ((List.perm_insertionSort seqLE l₂).pairwise_iff fun h => Ne.symm h).mpr hd
  have hd₁ : (sortBySeq l₁).Pairwise (fun a b => a.seq ≠ b.seq) :=
    (hperm.pairwise_iff fun h => Ne.symm h).mpr hd₂
  have st₁ : List.Sorted (fun a b : TileDelta => a.seq < b.seq) (sortBySeq l₁) :=
    (s₁.and hd₁).imp fun h => Nat.lt_of_le_of_ne h.1 h.2
  have st₂ : List.Sorted (fun a b : TileDelta => a.seq < b.seq) (sortBySeq l₂) :=
    (s₂.and hd₂).imp fun h => Nat.lt_of_le_of_ne h.1 h.2
  exact List.eq_of_perm_of_sorted hperm st₁ st₂

/-- C2: For any finite batch list for one tile with pairwise distinct `seq`
values and any network arrival order of it, a client that discards batches
with `seq` at most its last-applied value and applies the rest sorted into
ascending `seq` order reaches the same final per-pixel tile state as applying
the batches directly in ascending `seq` order. -/
theorem delta_convergence (base : TileState) (l arrival : List TileDelta) (lastApplied : Nat)
    (hperm : arrival.Perm l)
    (hdistinct : l.Pairwise fun a b => a.seq ≠ b.seq)
    (hnew : ∀ d ∈ l, lastApplied < d.seq) :
    applyDeltas base (sortBySeq (arrival.filter fun d => decide (lastApplied < d.seq)))
      = applyDeltas base (sortBySeq l) := by
  have hfilter : (arrival.filter fun d => decide (lastApplied < d.seq)) = arrival := by
    apply List.filter_eq_self.mpr
    intro a ha
    exact decide_eq_true (hnew a (hperm.subset ha))
  rw [hfilter, sortBySeq_eq_of_perm hperm hdistinct]

/-- Witness for C2: deltas with seq 5, 6, 7 arriving in network order
(7, 5, 6) at a client whose last applied seq is 4 converge to the state of
applying them in order 5, 6, 7 directly. -/
theorem delta_convergence_witness :
    ([⟨0, 0, 7, [⟨2, 2, 9, "earth"⟩]⟩, ⟨0, 0, 5, [⟨1, 1, 7, "classic"⟩]⟩,
        ⟨0, 0, 6, [⟨1, 1, 3, "classic"⟩]⟩] : List TileDelta).Perm
      [⟨0, 0, 5, [⟨1, 1, 7, "classic"⟩]⟩, ⟨0, 0, 6, [⟨1, 1, 3, "classic"⟩]⟩,
        ⟨0, 0, 7, [⟨2, 2, 9, "earth"⟩]⟩]
    ∧ applyDeltas (fun _ => (0, "classic"))
        (sortBySeq (([⟨0, 0, 7, [⟨2, 2, 9, "earth"⟩]⟩, ⟨0, 0, 5, [⟨1, 1, 7, "classic"⟩]⟩,
          ⟨0, 0, 6, [⟨1, 1, 3, "classic"⟩]⟩] : List TileDelta).filter
            fun d => decide (4 < d.seq)))
      = applyDeltas (fun _ => (0, "classic"))
        (sortBySeq [⟨0, 0, 5, [⟨1, 1, 7, "classic"⟩]⟩, ⟨0, 0, 6, [⟨1, 1, 3, "classic"⟩]⟩,
          ⟨0, 0, 7, [⟨2, 2, 9, "earth"⟩]⟩]) :=
  ⟨by decide,
    delta_convergence (fun _ => (0, "classic"))
      [⟨0, 0, 5, [⟨1, 1, 7, "classic"⟩]⟩, ⟨0, 0, 6, [⟨1, 1, 3, "classic"⟩]⟩,
        ⟨0, 0, 7, [⟨2, 2, 9, "earth"⟩]⟩]
      [⟨0, 0, 7, [⟨2, 2, 9, "earth"⟩]⟩, ⟨0, 0, 5, [⟨1, 1, 7, "classic"⟩]⟩,
        ⟨0, 0, 6, [⟨1, 1, 3, "classic"⟩]⟩]
      4 (by decide) (by decide) (by decide)⟩

end InfiniPlace
